import Mathlib

/-!
Shallow embedding of the effect lifecycle controller of
`src/hooks/effects.ts` (the `useEffects` hook and its `Effect` class),
together with the global frame clock (`animationFrame`), the debounce
pending set (`debounceUnmountPendingEffects`), the coroutine stepping
driver (`handleResult` / `nextResult`), the dependency fingerprint
resolution and the argument parser (`parseArgs`).

Modelling choices:
  - JS wall time `ms / 1000` is a rational (`Rat`); frame counters are
    integers (initial stamps are `-1`).
  - A `Destroyable` is either a bare disposer function (identified by a
    numeric id) or an object with a `value` payload and a `destroy`
    method (identified likewise); invoking a release action is recorded
    by appending its id to a release log, in invocation order.
  - The `destroyables` array of an instance is a `List JSVal`, where a
    `JSVal` is either a genuine destroyable or a falsy (null/undefined)
    entry, matching the defensive `if (destroyable)` check of `unmount`.
  - The global pending set is a duplicate-free list of effect ids,
    threaded explicitly through the operations that mutate it.
  - A generator is modelled as the list of its remaining resumption
    behaviours, each a function from the injected input (the payload of
    the previous yield) to an `IteratorResult`; an exhausted list acts
    like a generator that reports `done: true`.
-/

namespace SomeUtilsReact

/-- Reason passed to `Effect.unmount` (`enum UnmountReason`). -/
inductive UnmountReason where
  | regular
  | debounceNextFrame
deriving DecidableEq, Repr

/-- A genuine destroyable: either a bare disposer function (`() => void`)
or a disposable-value wrapper (`{ value, destroy }`). The `Nat` id
identifies which release action it is; `value` is the opaque payload. -/
inductive DValue where
  | fn (id : Nat)
  | obj (value : Nat) (id : Nat)
deriving DecidableEq, Repr

/-- An entry of the `destroyables` array: a destroyable, or a falsy
(null / undefined) slot that the release loop skips. -/
inductive JSVal where
  | nullish
  | d (v : DValue)
deriving DecidableEq, Repr

/-- The mutable `state` record of an `Effect` instance. -/
structure EffectState where
  id : Nat
  mounted : Bool
  unmountReason : UnmountReason
  depsId : Int
  mountId : Nat
  renderCount : Nat
  creationTime : Rat
  creationFrame : Int
  lastUpdateTime : Rat
  lastUpdateFrame : Int
deriving DecidableEq, Repr

/-- An `Effect` instance: its state record and its ordered list of
acquired resources (`destroyables`, insertion order = acquisition
order). -/
structure Effect where
  state : EffectState
  destroyables : List JSVal
deriving DecidableEq, Repr

/-- State of a freshly constructed `Effect` (`new Effect()`): unmounted,
`depsId = -1`, `mountId = 0`, stamps taken from the clock at creation,
`lastUpdateTime` and `lastUpdateFrame` both `-1`, no destroyables. -/
def freshEffect (id : Nat) (t : Rat) (fr : Int) : Effect :=
  { state :=
      { id := id
        mounted := false
        unmountReason := .regular
        depsId := -1
        mountId := 0
        renderCount := 0
        creationTime := t
        creationFrame := fr
        lastUpdateTime := -1
        lastUpdateFrame := -1 }
    destroyables := [] }

/-- Release actions fired for one entry of `destroyables`: a falsy entry
is skipped (`if (destroyable)`), an object is released via its `destroy`
method, a bare function is called directly. -/
def destroyOne : JSVal → List Nat
  | .nullish => []
  | .d (.fn i) => [i]
  | .d (.obj _ i) => [i]

/-- The `for (const destroyable of this.destroyables)` loop of
`Effect.unmount`: fires each entry's release action in list order and
returns the log of invoked action ids. -/
def releaseLoop : List JSVal → List Nat
  | [] => []
  | v :: rest => destroyOne v ++ releaseLoop rest

/-- `Effect.unmount(reason)`. Guarded no-op when already unmounted
(returns before touching anything, including the pending set).
Otherwise: sets `mounted = false` and `unmountReason`, fires every
release action in acquisition order, empties `destroyables`, and removes
the instance from the debounce pending set. Returns the updated
instance, the updated pending set, and the release log. -/
def Effect.unmount (e : Effect) (reason : UnmountReason) (pending : List Nat) :
    Effect × List Nat × List Nat :=
  if e.state.mounted = false then
    (e, pending, [])
  else
    ({ state := { e.state with mounted := false, unmountReason := reason }
       destroyables := [] },
     pending.filter (fun i => i ≠ e.state.id),
     releaseLoop e.destroyables)

/-- `Effect.ensureUnmounted()`: unmount only if currently mounted. -/
def Effect.ensureUnmounted (e : Effect) (pending : List Nat) :
    Effect × List Nat × List Nat :=
  if e.state.mounted = false then (e, pending, [])
  else e.unmount .regular pending

/-- Iterated calls to `unmount` (all with the same reason), collecting
the concatenated release logs, to express exactly-once release under
repeated unmount invocations. -/
def unmountTimes : Nat → Effect → UnmountReason → List Nat →
    Effect × List Nat × List Nat
  | 0, e, _, p => (e, p, [])
  | n + 1, e, r, p =>
    let step := e.unmount r p
    let rest := unmountTimes n step.1 r step.2.1
    (rest.1, rest.2.1, step.2.2 ++ rest.2.2)

theorem unmount_of_unmounted (e : Effect) (r : UnmountReason) (p : List Nat)
    (h : e.state.mounted = false) : e.unmount r p = (e, p, []) := by
  simp [Effect.unmount, h]

theorem unmount_of_mounted (e : Effect) (r : UnmountReason) (p : List Nat)
    (h : e.state.mounted = true) :
    e.unmount r p =
      ({ state := { e.state with mounted := false, unmountReason := r }
         destroyables := [] },
       p.filter (fun i => i ≠ e.state.id),
       releaseLoop e.destroyables) := by
  simp [Effect.unmount, h]

theorem unmountTimes_of_unmounted (n : Nat) (e : Effect) (r : UnmountReason)
    (p : List Nat) (h : e.state.mounted = false) :
    unmountTimes n e r p = (e, p, []) := by
  induction n generalizing p with
  | zero => rfl
  | succ n ih =>
    simp [unmountTimes, unmount_of_unmounted e r p h, ih]

/-! ## Coroutine stepping -/

/-- What a `next` call of the generator can yield (`type Yieldable`):
nothing (`void | null`), a single destroyable, or an array of
destroyables. -/
inductive Yieldable where
  | nullish
  | single (v : DValue)
  | arr (vs : List DValue)
deriving DecidableEq, Repr

/-- An `IteratorResult<Yieldable, void>`: the yielded `value` and the
`done` flag. -/
structure StepOut where
  value : Yieldable
  done : Bool
deriving DecidableEq, Repr

/-- The payload handed back into the generator at a resumption:
`undefined`, a wrapper's `value`, or (for a previously yielded array)
the array of per-element payloads. -/
inductive PayloadAtom where
  | undef
  | val (n : Nat)
deriving DecidableEq, Repr

/-- Input injected into `it.next(...)`: `undefined`, one payload, or a
sequence of payloads. -/
inductive Payload where
  | undef
  | val (n : Nat)
  | seq (ps : List PayloadAtom)
deriving DecidableEq, Repr

/-- `extractDestroyableValue`: a wrapper object's `value`, `undefined`
for a bare disposer function. -/
def extractDestroyableValue : DValue → PayloadAtom
  | .fn _ => .undef
  | .obj v _ => .val v

/-- Inclusion of a single payload atom into the input type. -/
def atomPayload : PayloadAtom → Payload
  | .undef => .undef
  | .val n => .val n

/-- `extractPreviousValue`: `undefined` when the previous yield was
falsy, the mapped payload array when it was an array, otherwise the
single extracted payload. -/
def extractPreviousValue : Yieldable → Payload
  | .nullish => .undef
  | .arr vs => .seq (vs.map extractDestroyableValue)
  | .single v => atomPayload (extractDestroyableValue v)

/-- Entries pushed onto `destroyables` for one yielded value: nothing
for a falsy yield (`if (value)`), the single destroyable, or every
element of a yielded array, in order. -/
def pushedEntries : Yieldable → List JSVal
  | .nullish => []
  | .single v => [.d v]
  | .arr vs => vs.map .d

/-- `handleResult(result)`: records the yield on the instance. Appends
the yielded resources to `destroyables` and requests the next resumption
(`true`) only if the instance is still mounted, its `mountId` still
equals the `mountId` captured when the coroutine started, and the
iterator is not done; otherwise the result is discarded and stepping
stops (`false`). The returned flag is whether `nextResult` is invoked
again. -/
def handleResult (mountId0 : Nat) (e : Effect) (r : StepOut) : Effect × Bool :=
  if e.state.mounted = true ∧ e.state.mountId = mountId0 ∧ r.done = false then
    ({ e with destroyables := e.destroyables ++ pushedEntries r.value }, true)
  else
    (e, false)

/-- A step's result as seen by `nextResult`: either returned directly by
`it.next`, or wrapped in a promise that later resolves to it. -/
inductive StepResult where
  | sync (r : StepOut)
  | async (r : StepOut)
deriving DecidableEq, Repr

/-- `nextResult`'s dispatch on the shape of `it.next`'s return value:
a promise's resolution and a direct return are both funnelled into
`handleResult`. The `e` argument is the instance state at the moment
`handleResult` actually runs (for an async result, that is when the
promise resolves, which may be after teardown or remount). -/
def nextResult (mountId0 : Nat) (e : Effect) : StepResult → Effect × Bool
  | .sync r => handleResult mountId0 e r
  | .async r => handleResult mountId0 e r

/-- Synchronous driving loop of the generator: `gen` is the list of the
generator's remaining resumption behaviours (an empty list behaves as a
generator whose `next` reports `done: true`), `prev` the last recorded
`previousValue`. Returns the final instance and the trace of
(injected input, iterator result) pairs, one per `it.next` call. -/
def runSteps : List (Payload → StepOut) → Yieldable → Nat → Effect →
    Effect × List (Payload × StepOut)
  | [], prev, _, e =>
    (e, [(extractPreviousValue prev, { value := .nullish, done := true })])
  | f :: rest, prev, mountId0, e =>
    let input := extractPreviousValue prev
    let out := f input
    let step := handleResult mountId0 e out
    if step.2 then
      let next := runSteps rest out.value mountId0 step.1
      (next.1, (input, out) :: next.2)
    else
      (step.1, [(input, out)])

/-- Threading invariant of a stepping trace: the first `next` call
receives the given payload, and every later one receives the extracted
payload of the immediately preceding iterator result's value. -/
def threadedFrom : Payload → List (Payload × StepOut) → Prop
  | _, [] => True
  | p, (input, out) :: rest =>
      input = p ∧ threadedFrom (extractPreviousValue out.value) rest

theorem runSteps_threaded (gen : List (Payload → StepOut)) (prev : Yieldable)
    (m : Nat) (e : Effect) :
    threadedFrom (extractPreviousValue prev) (runSteps gen prev m e).2 := by
  induction gen generalizing prev e with
  | nil => exact ⟨rfl, trivial⟩
  | cons f rest ih =>
    by_cases h : (handleResult m e (f (extractPreviousValue prev))).2
    · simp only [runSteps, h, if_true]
      exact ⟨rfl, ih _ _⟩
    · simp only [runSteps, h, if_false]
      exact ⟨rfl, trivial⟩

/-! ## Mount step, unmount cleanup step, frame tick -/

/-- Ambient data read by the mount step: the `debounce` option and the
current global clock (`frame`, `time`). -/
structure MountEnv where
  debounce : Bool
  frame : Int
  time : Rat
deriving DecidableEq, Repr

/-- The mount step of `useEffects` (the body passed to
`useEffect`/`useLayoutEffect`/`useMemo`). Sets `mounted = true`,
increments `mountId`, stamps `lastUpdateFrame`/`lastUpdateTime` from the
clock, captures `mountId`; then the debounce short-circuit: if
`debounce` and `instance.state.lastUpdateFrame === frame` and
`instance.state.mountId > 1`, deletes the instance from the pending set
and returns without invoking the callback. Otherwise invokes the
callback; a generator result (`some gen`) is driven by `runSteps`
starting from `previousValue = undefined`. Returns the instance, the
pending set, and whether the callback was invoked. -/
def mountStep (env : MountEnv) (e : Effect) (pending : List Nat)
    (gen : Option (List (Payload → StepOut))) : Effect × List Nat × Bool :=
  let e1 : Effect :=
    { e with state :=
        { e.state with
            mounted := true
            mountId := e.state.mountId + 1
            lastUpdateFrame := env.frame
            lastUpdateTime := env.time } }
  let mountId0 := e1.state.mountId
  if env.debounce = true ∧ e1.state.lastUpdateFrame = env.frame ∧
      e1.state.mountId > 1 then
    (e1, pending.filter (fun i => i ≠ e1.state.id), false)
  else
    match gen with
    | none => (e1, pending, true)
    | some steps => ((runSteps steps .nullish mountId0 e1).1, pending, true)

/-- JS `Set.add`: appends the id only when not already a member. -/
def setAdd (p : List Nat) (i : Nat) : List Nat :=
  if i ∈ p then p else p ++ [i]

/-- Outcome of the unmount cleanup step: teardown deferred to the next
frame, released via `Effect.unmount`, or a thrown `Error`. -/
inductive CleanupOutcome where
  | deferred
  | released
  | fatal (msg : String)
deriving DecidableEq, Repr

/-- The unmount step of `useEffects` (the cleanup returned from the
second `useEffect`). If `debounce` and `instance.state.lastUpdateTime
=== time`: with `mountId < 2` the instance is added to the pending set
and nothing is released; with `mountId > 2` an `Error` is thrown.
Otherwise (including `mountId = 2` under the same-frame condition)
`instance.unmount()` runs. Returns the outcome, the instance, the
pending set, and the release log. -/
def unmountStep (debounce : Bool) (time : Rat) (e : Effect)
    (pending : List Nat) : CleanupOutcome × Effect × List Nat × List Nat :=
  if debounce = true ∧ e.state.lastUpdateTime = time then
    if e.state.mountId < 2 then
      (.deferred, e, setAdd pending e.state.id, [])
    else if e.state.mountId > 2 then
      (.fatal "useEffects debounce: Unexpected unmount!", e, pending, [])
    else
      let u := e.unmount .regular pending
      (.released, u.1, u.2.1, u.2.2)
  else
    let u := e.unmount .regular pending
    (.released, u.1, u.2.1, u.2.2)

/-- The global frame clock: `time` in seconds, `frame` a monotonic
counter. -/
structure Clock where
  time : Rat
  frame : Int
deriving DecidableEq, Repr

/-- The `for (const effect of debounceUnmountPendingEffects)` loop of
`animationFrame`: unmounts each pending effect with reason
`DebounceNextFrame`, threading the pending set (each unmount deletes the
effect just visited, so iterating the snapshot of the set's members is
faithful — an unmount mutates no other member). Returns the processed
(instance, release log) pairs and the final pending set. -/
def tickLoop : List Effect → List Nat → List (Effect × List Nat) × List Nat
  | [], p => ([], p)
  | e :: rest, p =>
    let u := e.unmount .debounceNextFrame p
    let next := tickLoop rest u.2.1
    ((u.1, u.2.2) :: next.1, next.2)

/-- `animationFrame(ms)`: sets `time = ms / 1000`, increments `frame`,
then unmounts every member of the debounce pending set with reason
`DebounceNextFrame` and clears the set. Returns the new clock, the
processed (instance, release log) pairs in set order, and the final
(empty) pending set. -/
def tick (nowMs : Rat) (c : Clock) (pending : List Effect) :
    Clock × List (Effect × List Nat) × List Effect :=
  let c1 : Clock := { time := nowMs / 1000, frame := c.frame + 1 }
  let processed := (tickLoop pending (pending.map (fun e => e.state.id))).1
  (c1, processed, [])

theorem tickLoop_fst_independent (l : List Effect) (p q : List Nat) :
    (tickLoop l p).1 = (tickLoop l q).1 := by
  induction l generalizing p q with
  | nil => rfl
  | cons e rest ih =>
    simp only [tickLoop, Effect.unmount]
    by_cases h : e.state.mounted = false
    · simp only [h, if_true]
      exact congrArg _ (ih _ _)
    · simp only [h, if_false]
      exact congrArg _ (ih _ _)

theorem tickLoop_fst_eq_map (l : List Effect) (p : List Nat) :
    (tickLoop l p).1 =
      l.map (fun e =>
        ((e.unmount .debounceNextFrame []).1, (e.unmount .debounceNextFrame []).2.2)) := by
  induction l generalizing p with
  | nil => rfl
  | cons e rest ih =>
    simp only [tickLoop, List.map_cons]
    refine congrArg₂ _ ?_ (ih _)
    simp only [Effect.unmount]
    by_cases h : e.state.mounted = false <;> simp [h]

/-! ## Render pass: dependency fingerprint and argument parsing -/

/-- The dependency argument of `useEffects` (`type Deps`): an explicit
ordered list of values, or the sentinel string `always`. Dependency
values and digests are modelled as integers. -/
inductive Deps where
  | always
  | list (vs : List Int)
deriving DecidableEq, Repr

/-- Resolution of the raw dependency argument into the array handed to
`useMemo`: with digesting enabled and a non-empty explicit array, the
one-element array of its digest; the `always` sentinel becomes a
one-element array holding a fresh `Math.random()` value (`rand`);
otherwise the raw array itself. `digest` models the external
`digestProps` collaborator. -/
def resolveDeps (useDigestProps : Bool) (digest : List Int → Int)
    (rand : Int) : Deps → List Int
  | .list vs =>
      if useDigestProps = true ∧ vs.length > 0 then [digest vs] else vs
  | .always => [rand]

/-- One render's evaluation of `useMemo(() => Effect.nextDepsId++, deps)`:
the stored cell holds the previous deps array and the memoised value;
the value is recomputed (taking and bumping the `nextDepsId` counter)
exactly when there is no stored cell yet or the deps array changed.
Returns the new cell, the value, and the new counter. -/
def useMemoStep (cell : Option (List Int × Int)) (deps : List Int)
    (next : Int) : Option (List Int × Int) × Int × Int :=
  match cell with
  | some c =>
      if c.1 = deps then (some c, c.2, next)
      else (some (deps, next), next, next + 1)
  | none => (some (deps, next), next, next + 1)

/-- The per-render hook state of one `useEffects` call site: the
`useMemo` cell computing `depsId`, the global `Effect.nextDepsId`
counter, and the `Effect` instance (itself memoised with empty deps, so
stable across renders). -/
structure RenderState where
  cell : Option (List Int × Int)
  nextDepsId : Int
  inst : Effect
deriving DecidableEq, Repr

/-- One render pass of `useEffects` up to (and excluding) the scheduled
mount step: resolves the deps, evaluates the `depsId` memo, and if the
resulting `depsId` differs from the instance's stored one, runs
`instance.ensureUnmounted()`, stores the new `depsId` and resets
`mountId` to 0; finally increments `renderCount`. Returns the new hook
state, the updated pending set, the release log of the forced teardown,
and whether the `depsId`-change branch was taken. -/
def renderStep (useDigestProps : Bool) (digest : List Int → Int)
    (rand : Int) (propsDeps : Deps) (rs : RenderState) (pending : List Nat) :
    RenderState × List Nat × List Nat × Bool :=
  let deps := resolveDeps useDigestProps digest rand propsDeps
  let m := useMemoStep rs.cell deps rs.nextDepsId
  let depsId := m.2.1
  if depsId ≠ rs.inst.state.depsId then
    let u := rs.inst.ensureUnmounted pending
    let e1 : Effect :=
      { u.1 with state := { u.1.state with depsId := depsId, mountId := 0 } }
    let e2 : Effect :=
      { e1 with state := { e1.state with renderCount := e1.state.renderCount + 1 } }
    ({ cell := m.1, nextDepsId := m.2.2, inst := e2 }, u.2.1, u.2.2, true)
  else
    let e2 : Effect :=
      { rs.inst with state :=
          { rs.inst.state with renderCount := rs.inst.state.renderCount + 1 } }
    ({ cell := m.1, nextDepsId := m.2.2, inst := e2 }, pending, [], false)

/-- Iterated render passes, one per element of `rands` (the successive
`Math.random()` draws), collecting the branch flags in order. -/
def iterRenders (useDigestProps : Bool) (digest : List Int → Int)
    (propsDeps : Deps) : List Int → RenderState → List Nat →
    RenderState × List Nat × List Bool
  | [], rs, p => (rs, p, [])
  | r :: rest, rs, p =>
    let step := renderStep useDigestProps digest r propsDeps rs p
    let next := iterRenders useDigestProps digest propsDeps rest step.1 step.2.1
    (next.1, next.2.1, step.2.2.2 :: next.2.2)

/-- The recognised options record after merging with `defaultOptions`. -/
structure Options where
  moment : Nat
  useDigestProps : Bool
  debounce : Bool
deriving DecidableEq, Repr

/-- A partial options object as passed by the caller. -/
structure OptionsArg where
  moment : Option Nat
  useDigestProps : Option Bool
  debounce : Option Bool
deriving DecidableEq, Repr

/-- `{ ...defaultOptions, ...options }`: `moment` defaults to `effect`
(encoded 0), `useDigestProps` to `true`, `debounce` to `true`. -/
def mergeOptions (o : OptionsArg) : Options :=
  { moment := o.moment.getD 0
    useDigestProps := o.useDigestProps.getD true
    debounce := o.debounce.getD true }

/-- The argument tuple of `useEffects`: either
`[options, callback, deps]`, or the short form `[callback, deps?]` whose
first element is not an object. The callback is opaque (a `Nat` token);
in the short form the deps slot may be absent. -/
inductive Args where
  | withOptions (o : OptionsArg) (cb : Nat) (deps : Deps)
  | short (cb : Nat) (deps : Option Deps)
deriving DecidableEq, Repr

/-- `parseArgs`: the three-element form is returned as is; in the short
form the options object defaults to `{}` and a missing deps argument
defaults to the sentinel `always`
(`const [arg0, arg1 = 'always'] = args`). -/
def parseArgs : Args → OptionsArg × Nat × Deps
  | .withOptions o cb d => (o, cb, d)
  | .short cb d => ({ moment := none, useDigestProps := none, debounce := none },
      cb, d.getD .always)

/-! ## Shared helper lemmas -/

theorem releaseLoop_append (ds₁ ds₂ : List JSVal) :
    releaseLoop (ds₁ ++ ds₂) = releaseLoop ds₁ ++ releaseLoop ds₂ := by
  induction ds₁ with
  | nil => rfl
  | cons v rest ih => simp [releaseLoop, ih]

theorem releaseLoop_skips_falsy (ds : List JSVal) :
    releaseLoop ds =
      releaseLoop (ds.filter (fun v => decide (v ≠ JSVal.nullish))) := by
  induction ds with
  | nil => rfl
  | cons v rest ih =>
    cases v with
    | nullish => simpa [releaseLoop, destroyOne, List.filter] using ih
    | d w => simp [releaseLoop, List.filter, ih]

theorem releaseLoop_mem (ds : List JSVal) (i : Nat) (h : i ∈ releaseLoop ds) :
    ∃ v ∈ ds, v ≠ JSVal.nullish ∧ destroyOne v = [i] := by
  induction ds with
  | nil => cases h
  | cons v rest ih =>
    rcases List.mem_append.1 h with hv | hr
    · refine ⟨v, List.mem_cons_self .., ?_, ?_⟩ <;>
        cases v with
        | nullish => cases hv
        | d w => cases w <;> simp_all [destroyOne]
    · obtain ⟨w, hw, hws⟩ := ih hr
      exact ⟨w, List.mem_cons_of_mem _ hw, hws⟩

/-! ## Claim theorems -/

/-- C2: for every effect instance and generation, the release actions of
its acquired resources fire exactly once no matter how many times
`unmount` is invoked — the first `unmount` of a mounted instance fires
exactly the release log of `destroyables`, leaves the instance unmounted
with empty `destroyables` and absent from the pending set, and every
later `unmount` call (with any reason, e.g. the deferred tick-driven
`DebounceNextFrame` one) releases nothing; iterating `unmount` any
positive number of times still fires each release action exactly once. -/
theorem unmount_release_exactly_once (e : Effect) (r : UnmountReason)
    (p : List Nat) (h : e.state.mounted = true) :
    (e.unmount r p).2.2 = releaseLoop e.destroyables ∧
    (e.unmount r p).1.state.mounted = false ∧
    (e.unmount r p).1.destroyables = [] ∧
    (e.unmount r p).1.state.id ∉ (e.unmount r p).2.1 ∧
    (∀ (n : Nat) (r2 : UnmountReason) (p2 : List Nat),
      (unmountTimes n (e.unmount r p).1 r2 p2).2.2 = []) ∧
    (∀ n : Nat, 1 ≤ n → (unmountTimes n e r p).2.2 = releaseLoop e.destroyables) := by
  have hu := unmount_of_mounted e r p h
  have hmounted : (e.unmount r p).1.state.mounted = false := by rw [hu]
  refine ⟨by rw [hu], hmounted, by rw [hu], ?_, ?_, ?_⟩
  · rw [hu]
    simp [List.mem_filter]
  · intro n r2 p2
    rw [unmountTimes_of_unmounted n _ r2 p2 hmounted]
  · intro n hn
    match n, hn with
    | n + 1, _ =>
      simp only [unmountTimes]
      rw [unmountTimes_of_unmounted n _ r _ hmounted]
      simp [hu]

/-- A concrete mounted instance holding a bare disposer, a falsy slot
and a value wrapper. -/
def sampleMounted : Effect :=
  { state :=
      { id := 4, mounted := true, unmountReason := .regular, depsId := 0
        mountId := 1, renderCount := 1, creationTime := 0, creationFrame := 0
        lastUpdateTime := 1, lastUpdateFrame := 2 }
    destroyables := [.d (.fn 10), .nullish, .d (.obj 5 11)] }

/-- Witness for C2 at a concrete instance holding a bare disposer, a
falsy slot and a value wrapper. -/
theorem unmount_release_exactly_once_witness :
    sampleMounted.state.mounted = true ∧
      (sampleMounted.unmount .regular [4, 7]).2.2 = [10, 11] ∧
      (sampleMounted.unmount .regular [4, 7]).1.state.id ∉
        (sampleMounted.unmount .regular [4, 7]).2.1 ∧
      (unmountTimes 3 sampleMounted .regular [4, 7]).2.2 = [10, 11] := by
  have hthm := unmount_release_exactly_once sampleMounted .regular [4, 7] rfl
  refine ⟨rfl, ?_, hthm.2.2.2.1, ?_⟩
  · rw [hthm.1]; rfl
  · rw [hthm.2.2.2.2.2 3 (by omega)]; rfl

/-- C3: a coroutine step result (synchronous or the resolution of an
awaited promise) that arrives after the owning instance was torn down
(`mounted = false`) or after its `mountId` changed since the coroutine
started is silently discarded: nothing is appended to `destroyables`,
the instance is untouched, and no further resumption is requested. -/
theorem stale_result_discarded (mountId0 : Nat) (e : Effect)
    (res : StepResult)
    (h : e.state.mounted = false ∨ e.state.mountId ≠ mountId0) :
    nextResult mountId0 e res = (e, false) := by
  have hguard : ¬ (e.state.mounted = true ∧ e.state.mountId = mountId0 ∧
      (match res with | .sync r => r | .async r => r).done = false) := by
    rcases h with h | h
    · intro hc
      rw [hc.1] at h
      cases h
    · exact fun hc => h hc.2.1
  cases res with
  | sync r =>
    simp only [nextResult, handleResult, if_neg hguard]
  | async r =>
    simp only [nextResult, handleResult, if_neg hguard]

/-- A concrete torn-down instance. -/
def sampleTornDown : Effect :=
  { state :=
      { id := 0, mounted := false, unmountReason := .regular, depsId := 0
        mountId := 1, renderCount := 1, creationTime := 0, creationFrame := 0
        lastUpdateTime := 1, lastUpdateFrame := 2 }
    destroyables := [] }

/-- Witness for C3: an asynchronous yield resolving against a torn-down
instance is dropped. -/
theorem stale_result_discarded_witness :
    (sampleTornDown.state.mounted = false ∨
        sampleTornDown.state.mountId ≠ 1) ∧
      nextResult 1 sampleTornDown
          (.async { value := .single (.fn 9), done := false }) =
        (sampleTornDown, false) :=
  ⟨Or.inl rfl, stale_result_discarded 1 _ _ (Or.inl rfl)⟩

/-- A generator yielding resource A (a bare disposer, id 1) then
resource B (a value wrapper, payload 5, id 2). -/
def twoResourceGen : List (Payload → StepOut) :=
  [fun _ => { value := .single (.fn 1), done := false },
   fun _ => { value := .single (.obj 5 2), done := false }]

/-- C4: release walks `destroyables` in acquisition order (the order the
resources were yielded, never reversed): the release log of a mounted
instance is the in-order log of its `destroyables` list, the log
homomorphically respects concatenation (so earlier acquisitions release
strictly before later ones), a bare action is called directly and a
value wrapper via its `destroy` method (both logging their action id);
end to end, a coroutine yielding resource A (disposer 1) then resource B
(wrapper 2), mounted at frame 3 and unmounted at a later time, releases
both, A before B (`[1, 2]`). -/
theorem release_in_acquisition_order (e : Effect) (r : UnmountReason)
    (p : List Nat) (h : e.state.mounted = true) :
    (e.unmount r p).2.2 = releaseLoop e.destroyables ∧
    (∀ ds₁ ds₂ : List JSVal,
      releaseLoop (ds₁ ++ ds₂) = releaseLoop ds₁ ++ releaseLoop ds₂) ∧
    (∀ i : Nat, destroyOne (JSVal.d (DValue.fn i)) = [i]) ∧
    (∀ v i : Nat, destroyOne (JSVal.d (DValue.obj v i)) = [i]) ∧
    ((mountStep { debounce := true, frame := 3, time := 50 } (freshEffect 9 0 0)
        [] (some twoResourceGen)).1.destroyables =
          [.d (.fn 1), .d (.obj 5 2)] ∧
      (unmountStep true 60
          (mountStep { debounce := true, frame := 3, time := 50 }
            (freshEffect 9 0 0) [] (some twoResourceGen)).1 []).2.2.2 =
        [1, 2]) := by
  refine ⟨by rw [unmount_of_mounted e r p h], releaseLoop_append,
    fun i => rfl, fun v i => rfl, by decide, by decide⟩

/-- Witness for C4 at the concrete mounted instance. -/
theorem release_in_acquisition_order_witness :
    sampleMounted.state.mounted = true ∧
      (sampleMounted.unmount .regular []).2.2 =
        releaseLoop sampleMounted.destroyables :=
  ⟨rfl, (release_in_acquisition_order sampleMounted .regular [] rfl).1⟩

/-- C10: a falsy yielded value (nothing / null) is never appended to
`destroyables` yet stepping continues to the next resumption
(`handleResult` returns the instance unchanged with the continue flag
set), and the release loop skips any falsy entry of `destroyables`
without invoking anything — its log equals the log of the list with
falsy entries filtered out, and every invoked action id comes from a
genuine non-falsy entry. -/
theorem falsy_yield_and_release_skipped (mountId0 : Nat) (e : Effect)
    (h1 : e.state.mounted = true) (h2 : e.state.mountId = mountId0) :
    handleResult mountId0 e { value := .nullish, done := false } = (e, true) ∧
    (∀ ds : List JSVal,
      releaseLoop ds =
        releaseLoop (ds.filter (fun v => decide (v ≠ JSVal.nullish)))) ∧
    (∀ (ds : List JSVal) (i : Nat), i ∈ releaseLoop ds →
      ∃ v ∈ ds, v ≠ JSVal.nullish ∧ destroyOne v = [i]) := by
  refine ⟨?_, releaseLoop_skips_falsy, releaseLoop_mem⟩
  simp [handleResult, h1, h2, pushedEntries]

/-- Witness for C10 at the concrete mounted instance (whose
`destroyables` already contain a falsy slot). -/
theorem falsy_yield_and_release_skipped_witness :
    sampleMounted.state.mounted = true ∧ sampleMounted.state.mountId = 1 ∧
      handleResult 1 sampleMounted { value := .nullish, done := false } =
        (sampleMounted, true) ∧
      releaseLoop sampleMounted.destroyables =
        releaseLoop (sampleMounted.destroyables.filter
          (fun v => decide (v ≠ JSVal.nullish))) :=
  ⟨rfl, rfl, (falsy_yield_and_release_skipped 1 sampleMounted rfl rfl).1,
    (falsy_yield_and_release_skipped 1 sampleMounted rfl rfl).2.1
      sampleMounted.destroyables⟩

/-- C7: the input supplied to each resumption equals the payload of the
previously yielded resource: the driver's trace is threaded — the first
`next` call receives `undefined` (the initial `previousValue` is falsy)
and each later one receives `extractPreviousValue` of the preceding
iterator result — where the extracted payload is the wrapper's `value`
for a disposable-value wrapper, `undefined` for a bare action or a falsy
yield, and the in-order sequence of per-element payloads for a yielded
array. -/
theorem resumption_input_is_previous_payload
    (gen : List (Payload → StepOut)) (m : Nat) (e : Effect) :
    threadedFrom .undef (runSteps gen .nullish m e).2 ∧
    extractPreviousValue .nullish = .undef ∧
    (∀ v i : Nat, extractPreviousValue (.single (.obj v i)) = .val v) ∧
    (∀ i : Nat, extractPreviousValue (.single (.fn i)) = .undef) ∧
    (∀ vs : List DValue,
      extractPreviousValue (.arr vs) = .seq (vs.map extractDestroyableValue)) ∧
    (∀ v i : Nat, extractDestroyableValue (.obj v i) = .val v) ∧
    (∀ i : Nat, extractDestroyableValue (.fn i) = .undef) :=
  ⟨runSteps_threaded gen .nullish m e, rfl, fun _ _ => rfl, fun _ => rfl,
    fun _ => rfl, fun _ _ => rfl, fun _ => rfl⟩

/-- A generator yielding one resource (a bare disposer, id 3). -/
def oneResourceGen : List (Payload → StepOut) :=
  [fun _ => { value := .single (.fn 3), done := false }]

/-- The failing input for C1: an instance whose previous mount was
stamped at frame 5 (its deferred teardown was flushed by the tick, so it
is unmounted with no resources), remounted in the strictly later
frame 6. -/
def laterFrameRemount : Effect :=
  { state :=
      { id := 2, mounted := false, unmountReason := .debounceNextFrame
        depsId := 0, mountId := 1, renderCount := 2
        creationTime := 0, creationFrame := 5
        lastUpdateTime := 1, lastUpdateFrame := 5 }
    destroyables := [] }

/-- C1 (divergence): the mount step assigns
`lastUpdateFrame := frame` two lines before the debounce guard compares
`lastUpdateFrame` with `frame`, so the frame-equality test is vacuously
true and the short-circuit fires whenever `debounce` holds and
`mountId > 1` — even for a remount of the same generation in a strictly
later frame. At the concrete failing input (previous mount at frame 5,
remount at frame 6, `mountId` becoming 2) the callback is not invoked
and no resource is acquired, contradicting the claim that a later-frame
remount invokes the coroutine. -/
theorem mount_skips_later_frame_remount :
    laterFrameRemount.state.lastUpdateFrame = 5 ∧
    laterFrameRemount.state.mountId = 1 ∧
    (5 : Int) ≠ 6 ∧
    (mountStep { debounce := true, frame := 6, time := 2 } laterFrameRemount []
        (some oneResourceGen)).2.2 = false ∧
    (mountStep { debounce := true, frame := 6, time := 2 } laterFrameRemount []
        (some oneResourceGen)).1.state.mountId = 2 ∧
    (mountStep { debounce := true, frame := 6, time := 2 } laterFrameRemount []
        (some oneResourceGen)).1.destroyables = [] := by
  refine ⟨rfl, rfl, by decide, by decide, by decide, by decide⟩

/-- C5: under debounce, when the cleanup runs with `lastUpdateTime`
equal to the current clock time (mount and unmount within the same
frame): `mountId > 2` throws the fatal
"useEffects debounce: Unexpected unmount!" error without releasing or
deferring; `mountId < 2` defers (adds the instance to the pending set,
releasing nothing, leaving the instance untouched); `mountId = 2`
releases immediately via `Effect.unmount`. -/
theorem unmount_step_same_frame_triage (e : Effect) (t : Rat) (p : List Nat)
    (hsame : e.state.lastUpdateTime = t) :
    (e.state.mountId > 2 →
      unmountStep true t e p =
        (.fatal "useEffects debounce: Unexpected unmount!", e, p, [])) ∧
    (e.state.mountId < 2 →
      unmountStep true t e p = (.deferred, e, setAdd p e.state.id, [])) ∧
    (e.state.mountId = 2 →
      (unmountStep true t e p).1 = .released ∧
      (e.state.mounted = true →
        (unmountStep true t e p).2.2.2 = releaseLoop e.destroyables)) := by
  refine ⟨?_, ?_, ?_⟩
  · intro hgt
    have h1 : ¬ (e.state.mountId < 2) := by omega
    simp [unmountStep, hsame, h1, hgt]
  · intro hlt
    simp [unmountStep, hsame, hlt]
  · intro heq
    have h1 : ¬ (e.state.mountId < 2) := by omega
    have h2 : ¬ (e.state.mountId > 2) := by omega
    refine ⟨by simp [unmountStep, hsame, h1, h2], fun hm => ?_⟩
    simp [unmountStep, hsame, h1, h2, unmount_of_mounted e .regular p hm]

/-- A concrete instance that collapsed three mount/unmount pairs into
the frame at clock time 7. -/
def sampleTripleMount : Effect :=
  { state :=
      { id := 6, mounted := true, unmountReason := .regular, depsId := 1
        mountId := 3, renderCount := 3, creationTime := 7, creationFrame := 4
        lastUpdateTime := 7, lastUpdateFrame := 4 }
    destroyables := [.d (.fn 12)] }

/-- Witness for C5: the concrete triple-mount instance hits the fatal
branch. -/
theorem unmount_step_same_frame_triage_witness :
    sampleTripleMount.state.lastUpdateTime = 7 ∧
      sampleTripleMount.state.mountId > 2 ∧
      unmountStep true 7 sampleTripleMount [] =
        (.fatal "useEffects debounce: Unexpected unmount!",
          sampleTripleMount, [], []) :=
  ⟨rfl, by decide,
    (unmount_step_same_frame_triage sampleTripleMount 7 [] rfl).1 (by decide)⟩

/-- Expected result of force-releasing one pending instance at the
tick: the unmounted instance stamped with reason `DebounceNextFrame`,
drained of its `destroyables`, paired with its full release log. -/
def flushed (e : Effect) : Effect × List Nat :=
  ({ state := { e.state with mounted := false, unmountReason := .debounceNextFrame }
     destroyables := [] },
   releaseLoop e.destroyables)

/-- C6: `animationFrame(nowMs)` sets `time = nowMs / 1000` and
increments `frame`; every instance currently in the debounce pending set
(all of which are mounted in any reachable state, since deferral
happens before `mounted` is cleared) is unmounted exactly once with
reason `DebounceNextFrame` — its release log fired in full, its
`destroyables` drained — and the set is left empty, so no instance
remains pending across the tick. -/
theorem tick_flushes_pending (nowMs : Rat) (c : Clock)
    (pending : List Effect) (hm : ∀ e ∈ pending, e.state.mounted = true) :
    (tick nowMs c pending).1 = { time := nowMs / 1000, frame := c.frame + 1 } ∧
    (tick nowMs c pending).2.2 = [] ∧
    (tick nowMs c pending).2.1 = pending.map flushed ∧
    (∀ pr ∈ (tick nowMs c pending).2.1,
      pr.1.state.mounted = false ∧ pr.1.destroyables = [] ∧
        pr.1.state.unmountReason = .debounceNextFrame) := by
  have hmap : (tick nowMs c pending).2.1 = pending.map flushed := by
    show (tickLoop pending (pending.map (fun e => e.state.id))).1 = _
    rw [tickLoop_fst_eq_map]
    refine List.map_congr_left (fun e he => ?_)
    rw [unmount_of_mounted e .debounceNextFrame [] (hm e he)]
    rfl
  refine ⟨rfl, rfl, hmap, ?_⟩
  intro pr hpr
  rw [hmap] at hpr
  obtain ⟨e, _, hpe⟩ := List.mem_map.1 hpr
  rw [← hpe]
  exact ⟨rfl, rfl, rfl⟩

/-- A second concrete mounted instance for the tick witness. -/
def sampleMountedB : Effect :=
  { state :=
      { id := 5, mounted := true, unmountReason := .regular, depsId := 2
        mountId := 1, renderCount := 1, creationTime := 1, creationFrame := 2
        lastUpdateTime := 1, lastUpdateFrame := 2 }
    destroyables := [.d (.obj 8 20)] }

/-- Witness for C6: a tick over a pending set holding two mounted
instances flushes both, in set order, and empties the set. -/
theorem tick_flushes_pending_witness :
    (∀ e ∈ [sampleMounted, sampleMountedB], e.state.mounted = true) ∧
      (tick 250 { time := 1, frame := 2 } [sampleMounted, sampleMountedB]).1 =
        { time := 250 / 1000, frame := 3 } ∧
      (tick 250 { time := 1, frame := 2 }
          [sampleMounted, sampleMountedB]).2.2 = [] ∧
      ((tick 250 { time := 1, frame := 2 }
          [sampleMounted, sampleMountedB]).2.1.map (fun pr => pr.2)) =
        [[10, 11], [20]] := by
  have hthm := tick_flushes_pending 250 { time := 1, frame := 2 }
    [sampleMounted, sampleMountedB] (by decide)
  refine ⟨by decide, hthm.1, hthm.2.1, ?_⟩
  rw [hthm.2.2.1]
  rfl

/-! ## Render-pass helper lemmas -/

theorem renderStep_empty_stable (udp : Bool) (dg : List Int → Int) (r : Int)
    (rs : RenderState) (p : List Nat) (v : Int)
    (hc : rs.cell = some ([], v)) (hd : rs.inst.state.depsId = v) :
    (renderStep udp dg r (.list []) rs p).2.2.2 = false ∧
    (renderStep udp dg r (.list []) rs p).1.cell = some ([], v) ∧
    (renderStep udp dg r (.list []) rs p).1.inst.state.depsId = v ∧
    (renderStep udp dg r (.list []) rs p).2.1 = p := by
  simp [renderStep, resolveDeps, useMemoStep, hc, hd]

theorem iterRenders_empty_all_false (udp : Bool) (dg : List Int → Int)
    (rands : List Int) (rs : RenderState) (p : List Nat) (v : Int)
    (hc : rs.cell = some ([], v)) (hd : rs.inst.state.depsId = v) :
    (iterRenders udp dg (.list []) rands rs p).2.2 =
      List.replicate rands.length false ∧
    (iterRenders udp dg (.list []) rands rs p).1.inst.state.depsId = v ∧
    (iterRenders udp dg (.list []) rands rs p).2.1 = p := by
  induction rands generalizing rs p with
  | nil => exact ⟨rfl, hd, rfl⟩
  | cons r rest ih =>
    have hstep := renderStep_empty_stable udp dg r rs p v hc hd
    have hrec := ih (renderStep udp dg r (.list []) rs p).1
      (renderStep udp dg r (.list []) rs p).2.1 hstep.2.1 hstep.2.2.1
    simp only [iterRenders]
    exact ⟨by rw [hstep.1, hrec.1, List.length_cons, List.replicate_succ],
      hrec.2.1, by rw [hrec.2.2, hstep.2.2.2]⟩

theorem renderStep_first_empty (udp : Bool) (dg : List Int → Int) (r : Int)
    (n0 : Int) (h0 : 0 ≤ n0) (id : Nat) (t : Rat) (fr : Int) (p : List Nat) :
    (renderStep udp dg r (.list [])
        { cell := none, nextDepsId := n0, inst := freshEffect id t fr } p).2.2.2 =
      true ∧
    (renderStep udp dg r (.list [])
        { cell := none, nextDepsId := n0, inst := freshEffect id t fr } p).1.cell =
      some ([], n0) ∧
    (renderStep udp dg r (.list [])
        { cell := none, nextDepsId := n0,
          inst := freshEffect id t fr } p).1.inst.state.depsId = n0 ∧
    (renderStep udp dg r (.list [])
        { cell := none, nextDepsId := n0, inst := freshEffect id t fr } p).2.1 =
      p := by
  have hne : ¬ (n0 = -1) := by omega
  simp [renderStep, resolveDeps, useMemoStep, Effect.ensureUnmounted, hne,
    freshEffect]

theorem renderStep_always_restart (udp : Bool) (dg : List Int → Int) (r : Int)
    (rs : RenderState) (p : List Nat)
    (hwf : rs.inst.state.depsId < rs.nextDepsId)
    (hcell : ∀ c, rs.cell = some c → c.1 ≠ [r]) :
    (renderStep udp dg r .always rs p).2.2.2 = true ∧
    (renderStep udp dg r .always rs p).1.cell = some ([r], rs.nextDepsId) ∧
    (renderStep udp dg r .always rs p).1.nextDepsId = rs.nextDepsId + 1 ∧
    (renderStep udp dg r .always rs p).1.inst.state.depsId = rs.nextDepsId := by
  have hne : rs.nextDepsId ≠ rs.inst.state.depsId := by omega
  cases hc : rs.cell with
  | none =>
    simp [renderStep, resolveDeps, useMemoStep, hc, hne]
  | some c =>
    have hcne : ¬ (c.1 = [r]) := hcell c hc
    simp [renderStep, resolveDeps, useMemoStep, hc, hcne, hne]

theorem iterRenders_always_all_true (udp : Bool) (dg : List Int → Int)
    (rands : List Int) (rs : RenderState) (p : List Nat)
    (hwf : rs.inst.state.depsId < rs.nextDepsId)
    (hcell : ∀ c, rs.cell = some c → ∀ r0 ∈ rands.head?, c.1 ≠ [r0])
    (hchain : rands.Chain' (fun a b => a ≠ b)) :
    (iterRenders udp dg .always rands rs p).2.2 =
      List.replicate rands.length true := by
  induction rands generalizing rs p with
  | nil => rfl
  | cons r rest ih =>
    have hstep := renderStep_always_restart udp dg r rs p hwf
      (fun c hc => hcell c hc r rfl)
    have hchain2 := List.chain'_cons'.1 hchain
    have hrec := ih (renderStep udp dg r .always rs p).1
      (renderStep udp dg r .always rs p).2.1
      (by rw [hstep.2.2.1, hstep.2.2.2]; omega)
      (by
        intro c hc r0 hr0
        rw [hstep.2.1] at hc
        cases hc
        have hne := hchain2.1 r0 hr0
        simp only [ne_eq, List.cons.injEq, and_true]
        exact fun hrr => hne hrr)
      hchain2.2
    simp only [iterRenders]
    rw [hstep.1, hrec, List.length_cons, List.replicate_succ]

/-- C8: for a sequence of renders of one component starting from a fresh
hook state (`Effect.nextDepsId` counter at some `n0 ≥ 0`): with an
explicit empty dependency sequence the `depsId`-change branch runs only
on the very first render (where the instance is still uninitialized,
`depsId = -1`) and never again — the fingerprint generation id stays
`n0` forever, so the coroutine is never restarted; with the `always`
sentinel, provided the successive `Math.random()` draws each differ from
the previous one, the branch runs on every render — the coroutine is
restarted on every render pass. -/
theorem fingerprint_stability (udp : Bool) (dg : List Int → Int) (n0 : Int)
    (h0 : 0 ≤ n0) (id : Nat) (t : Rat) (fr : Int) (p : List Nat)
    (r : Int) (rest : List Int) :
    ((iterRenders udp dg (.list []) (r :: rest)
        { cell := none, nextDepsId := n0, inst := freshEffect id t fr } p).2.2 =
          true :: List.replicate rest.length false ∧
      (iterRenders udp dg (.list []) (r :: rest)
        { cell := none, nextDepsId := n0,
          inst := freshEffect id t fr } p).1.inst.state.depsId = n0) ∧
    ((r :: rest).Chain' (fun a b => a ≠ b) →
      (iterRenders udp dg .always (r :: rest)
        { cell := none, nextDepsId := n0, inst := freshEffect id t fr } p).2.2 =
          List.replicate (rest.length + 1) true) := by
  constructor
  · have hfirst := renderStep_first_empty udp dg r n0 h0 id t fr p
    have hrest := iterRenders_empty_all_false udp dg rest
      (renderStep udp dg r (.list [])
        { cell := none, nextDepsId := n0, inst := freshEffect id t fr } p).1
      (renderStep udp dg r (.list [])
        { cell := none, nextDepsId := n0, inst := freshEffect id t fr } p).2.1
      n0 hfirst.2.1 hfirst.2.2.1
    constructor
    · simp only [iterRenders]
      rw [hfirst.1, hrest.1]
    · simp only [iterRenders]
      exact hrest.2.1
  · intro hchain
    have := iterRenders_always_all_true udp dg (r :: rest)
      { cell := none, nextDepsId := n0, inst := freshEffect id t fr } p
      (by simp only [freshEffect]; omega)
      (by intro c hc; cases hc)
      hchain
    simpa using this

/-- Witness for C8: three renders, random draws `3, 4, 3`. -/
theorem fingerprint_stability_witness :
    (0 : Int) ≤ 0 ∧
      ((iterRenders true (fun _ => 99) (.list []) [3, 4, 3]
          { cell := none, nextDepsId := 0, inst := freshEffect 0 0 0 } []).2.2 =
            [true, false, false] ∧
        (iterRenders true (fun _ => 99) (.list []) [3, 4, 3]
          { cell := none, nextDepsId := 0,
            inst := freshEffect 0 0 0 } []).1.inst.state.depsId = 0) ∧
      (([3, 4, 3] : List Int).Chain' (fun a b => a ≠ b) ∧
        (iterRenders true (fun _ => 99) .always [3, 4, 3]
          { cell := none, nextDepsId := 0, inst := freshEffect 0 0 0 } []).2.2 =
            [true, true, true]) := by
  have hchain : ([3, 4, 3] : List Int).Chain' (fun a b => a ≠ b) := by
    simp [List.chain'_cons]
  have hthm := fingerprint_stability true (fun _ => 99) 0 (by omega) 0 0 0 [] 3 [4, 3]
  exact ⟨by omega, hthm.1, hchain, hthm.2 hchain⟩

/-- C9: in the short argument form with the dependency argument omitted
(only a callback provided), `parseArgs` defaults the parsed dependency
argument to the sentinel `always` and the options object to `{}`;
consequently (for successively differing `Math.random()` draws) the
`depsId`-change branch runs on every render, so the coroutine restarts
on every render pass. -/
theorem omitted_deps_defaults_always (cb : Nat) (udp : Bool)
    (dg : List Int → Int) (n0 : Int) (h0 : 0 ≤ n0) (id : Nat) (t : Rat)
    (fr : Int) (p : List Nat) (rands : List Int)
    (hchain : rands.Chain' (fun a b => a ≠ b)) :
    (parseArgs (.short cb none)).2.2 = .always ∧
    (parseArgs (.short cb none)).1 =
      { moment := none, useDigestProps := none, debounce := none } ∧
    (iterRenders udp dg (parseArgs (.short cb none)).2.2 rands
        { cell := none, nextDepsId := n0, inst := freshEffect id t fr } p).2.2 =
      List.replicate rands.length true := by
  refine ⟨rfl, rfl, ?_⟩
  exact iterRenders_always_all_true udp dg rands _ p
    (by simp only [freshEffect]; omega) (by intro c hc; cases hc) hchain

/-- Witness for C9: two renders with draws `5, 6` both restart. -/
theorem omitted_deps_defaults_always_witness :
    (0 : Int) ≤ 1 ∧ ([5, 6] : List Int).Chain' (fun a b => a ≠ b) ∧
      (parseArgs (.short 42 none)).2.2 = .always ∧
      (iterRenders false (fun _ => 0) (parseArgs (.short 42 none)).2.2 [5, 6]
          { cell := none, nextDepsId := 1, inst := freshEffect 3 0 0 } []).2.2 =
        [true, true] := by
  have hchain : ([5, 6] : List Int).Chain' (fun a b => a ≠ b) := by
    simp [List.chain'_cons]
  have hthm := omitted_deps_defaults_always 42 false (fun _ => 0) 1 (by omega)
    3 0 0 [] [5, 6] hchain
  exact ⟨by omega, hchain, hthm.1, by rw [hthm.2.2]; rfl⟩

end SomeUtilsReact
